import Mathlib

/-!
Verification of `sync_albums.py` (bdwilson/shared-photo-sync).

Shallow embedding of the idempotent transfer engine: the two-phase
retryable upload protocol (`upload_photo`), the pending-work calculator,
the missing-item recovery path (`download_and_upload_missing`), and the
main orchestration loop, together with theorems about the claims of the
specification.

Remote services, the local library and the external recovery tool are
modelled as oracles (`Env` fields): pure functions giving the observable
response to each call the program makes, so every run of the embedded
program is a deterministic function of the oracle responses.
-/

namespace SyncAlbums

/-- A photo of the local library: `osxphotos` exposes `uuid` and `filename`. -/
structure Photo where
  uuid : String
  filename : String
deriving DecidableEq, Repr

/-- A shared album of the local library (`album_info_shared` entry):
a title and the native-ordered photo listing. -/
structure Album where
  title : String
  photos : List Photo
deriving DecidableEq, Repr

/-- The `uploads` table of `sync_state.db`: rows `(photo_uuid, album_title)`,
in insertion order. -/
abbrev Ledger := List (String × String)

/-! ## Transfer pipeline: `upload_photo` (sync_albums.py lines 108-176) -/

/-- The status codes `_upload_bytes_with_retry` / `_create_media_with_retry`
treat as retryable: `[429, 500, 502, 503, 504]` (lines 125 and 146). -/
def retryableStatus (s : Nat) : Bool :=
  s = 429 || s = 500 || s = 502 || s = 503 || s = 504

/-- Observable outcome of one byte-upload request
(`requests.post` at line 121, as seen through the `except` clauses). -/
inductive ByteResp where
  /-- 2xx response; `response.text` is the upload token. -/
  | ok (text : String)
  /-- `raise_for_status` raised `HTTPError` with this status code. -/
  | httpFail (status : Nat)
  /-- `requests.exceptions.Timeout` or `ConnectionError`. -/
  | connIssue
  /-- any other `RequestException`: re-raised by the `else` branch (line 134). -/
  | otherReqError
deriving DecidableEq, Repr

/-- Is this byte-upload response one the loop retries on (lines 125-132)? -/
def ByteResp.isRetryable : ByteResp → Bool
  | .httpFail s => retryableStatus s
  | .connIssue => true
  | _ => false

/-- `status` object of one entry of `newMediaItemResults` (line 175). -/
structure CommitStatus where
  message : Option String
deriving DecidableEq, Repr

/-- One entry of `newMediaItemResults`; `status` may be absent
(`.get('status', {})`). -/
structure MediaItemResult where
  status : Option CommitStatus
deriving DecidableEq, Repr

/-- The JSON dict returned by `mediaItems().batchCreate(...).execute()`.
`otherKeys` records whether the dict carries keys besides
`newMediaItemResults`, which matters only for Python truthiness
(`if not result` at line 172). -/
structure BatchResponse where
  newMediaItemResults : Option (List MediaItemResult)
  otherKeys : Bool
deriving DecidableEq, Repr

/-- Python truthiness of the response dict: non-empty. -/
def BatchResponse.isTruthy (r : BatchResponse) : Bool :=
  r.newMediaItemResults.isSome || r.otherKeys

/-- Observable outcome of one `batchCreate` call (line 144). -/
inductive CommitResp where
  /-- call returned this response dict. -/
  | ok (r : BatchResponse)
  /-- `HttpError` with this status (`e.resp.status`, line 146). -/
  | httpFail (status : Nat)
deriving DecidableEq, Repr

/-- Is this commit response one the loop retries on (line 146)? -/
def CommitResp.isRetryable : CommitResp → Bool
  | .httpFail s => retryableStatus s
  | _ => false

/-- What one retry phase produced: its result, how many requests it made,
and the pre-jitter backoff sleeps (`2 ** attempt`) it performed, in order.
Each actual sleep is the listed amount plus `random.uniform(0, 1)`. -/
structure PhaseRun (α : Type) where
  result : α
  attempts : Nat
  delays : List Nat
deriving DecidableEq, Repr

/-- Result of `_upload_bytes_with_retry` as observed by `upload_photo`. -/
inductive P1Result where
  /-- returned `response.text`. -/
  | token (t : String)
  /-- fell off the loop: returned `None` (line 135). -/
  | exhausted
  /-- re-raised a non-retryable exception (line 134). -/
  | raised
deriving DecidableEq, Repr

/-- The loop of `_upload_bytes_with_retry` (lines 112-135): `a` is the
current value of `attempt`, the second argument the remaining iterations
of `range(5)`. On a retryable failure the code sleeps
`(2 ** attempt) + random.uniform(0, 1)` and iterates; the sleep happens
even when it was the final iteration. -/
def uploadBytesGo (resp : Nat → ByteResp) : Nat → Nat → PhaseRun P1Result
  | _, 0 => ⟨.exhausted, 0, []⟩
  | a, r + 1 =>
    match resp a with
    | .ok t => ⟨.token t, 1, []⟩
    | .httpFail s =>
      if retryableStatus s then
        let rest := uploadBytesGo resp (a + 1) r
        ⟨rest.result, rest.attempts + 1, 2 ^ a :: rest.delays⟩
      else ⟨.raised, 1, []⟩
    | .connIssue =>
      let rest := uploadBytesGo resp (a + 1) r
      ⟨rest.result, rest.attempts + 1, 2 ^ a :: rest.delays⟩
    | .otherReqError => ⟨.raised, 1, []⟩

/-- `_upload_bytes_with_retry`: at most 5 attempts starting at attempt 0. -/
def uploadBytesWithRetry (resp : Nat → ByteResp) : PhaseRun P1Result :=
  uploadBytesGo resp 0 5

/-- Result of `_create_media_with_retry` as observed by `upload_photo`. -/
inductive P2Result where
  /-- returned the parsed response dict. -/
  | done (r : BatchResponse)
  /-- fell off the loop: returned `None` (line 152). -/
  | exhausted
  /-- re-raised a non-retryable `HttpError` (line 151). -/
  | raised
deriving DecidableEq, Repr

/-- The loop of `_create_media_with_retry` (lines 142-152), analogous to
`uploadBytesGo` (retryable: `HttpError` with status in the retryable set). -/
def createMediaGo (resp : Nat → CommitResp) : Nat → Nat → PhaseRun P2Result
  | _, 0 => ⟨.exhausted, 0, []⟩
  | a, r + 1 =>
    match resp a with
    | .ok b => ⟨.done b, 1, []⟩
    | .httpFail s =>
      if retryableStatus s then
        let rest := createMediaGo resp (a + 1) r
        ⟨rest.result, rest.attempts + 1, 2 ^ a :: rest.delays⟩
      else ⟨.raised, 1, []⟩

/-- `_create_media_with_retry`: at most 5 attempts starting at attempt 0. -/
def createMediaWithRetry (resp : Nat → CommitResp) : PhaseRun P2Result :=
  createMediaGo resp 0 5

/-- Line 175: `result.get('newMediaItemResults', [{}])[0].get('status', {})`
followed by `.get('message')`. A present-but-empty `newMediaItemResults`
list makes the `[0]` subscript raise `IndexError` (modelled as `.error`);
a missing key defaults to `[{}]`, whose first element yields no message. -/
def commitStatusMessage (r : BatchResponse) : Except Unit (Option String) :=
  match r.newMediaItemResults with
  | none => .ok none
  | some [] => .error ()
  | some (e :: _) =>
    match e.status with
    | none => .ok none
    | some s => .ok s.message

/-- The value `upload_photo` produces, as its caller can observe it:
`success` = returned `True`, `failed` = returned `False`,
`unresolved` = returned `None`, `raisedExn` = an exception escaped it. -/
inductive UploadOutcome where
  | success
  | failed
  | unresolved
  | raisedExn
deriving DecidableEq, Repr

/-- Full observable record of one `upload_photo` call. -/
structure UploadRun where
  outcome : UploadOutcome
  phase1 : PhaseRun P1Result
  phase2 : Option (PhaseRun P2Result)
deriving DecidableEq, Repr

/-- Lines 172-176: a falsy response dict returns `False`; otherwise the
per-item status message decides `True` vs `False`, except that the
malformed empty-`newMediaItemResults` response raises `IndexError`. -/
def commitOutcome (resp : BatchResponse) : UploadOutcome :=
  if !resp.isTruthy then .failed
  else
    match commitStatusMessage resp with
    | .error _ => .raisedExn
    | .ok m => if m = some "Success" then .success else .failed

/-- Lines 165-176: phase 2 exceptions and exhaustion both give `False`;
otherwise the response dict is inspected by `commitOutcome`. -/
def phase2Outcome (r2 : PhaseRun P2Result) : UploadOutcome :=
  match r2.result with
  | .raised => .failed
  | .exhausted => .failed
  | .done resp => commitOutcome resp

/-- `upload_photo` (lines 108-176): phase 1 exceptions and exhaustion give
`None`; a falsy (empty) token gives `None` (line 162); otherwise phase 2
runs with its own fresh retry budget and its result decides the outcome. -/
def upload_photo (p1 : Nat → ByteResp) (p2 : Nat → CommitResp) : UploadRun :=
  match (uploadBytesWithRetry p1).result with
  | .raised => ⟨.unresolved, uploadBytesWithRetry p1, none⟩
  | .exhausted => ⟨.unresolved, uploadBytesWithRetry p1, none⟩
  | .token t =>
    if t = "" then ⟨.unresolved, uploadBytesWithRetry p1, none⟩
    else ⟨phase2Outcome (createMediaWithRetry p2), uploadBytesWithRetry p1,
      some (createMediaWithRetry p2)⟩

/-! ## Jitter: the actual sleeps are `2 ^ attempt + random.uniform(0, 1)` -/

/-- Pair each recorded pre-jitter sleep with its jitter draw: the element at
position `k` (starting from the given index) becomes `d + j k`. -/
def delaysWithJitter (j : Nat → ℚ) : List Nat → Nat → List ℚ
  | [], _ => []
  | d :: ds, k => ((d : ℚ) + j k) :: delaysWithJitter j ds (k + 1)

/-! ## Pending-work calculator (main, lines 313-318) -/

/-- `SELECT photo_uuid FROM uploads WHERE album_title = title`: the uuids the
ledger records for this album title. -/
def syncedUuids (ledger : Ledger) (title : String) : List String :=
  (ledger.filter (fun r => r.2 == title)).map Prod.fst

/-- Line 315: the photos of an album whose uuid is not among the synced
uuids for its title, in native order. -/
def pendingPhotos (ledger : Ledger) (a : Album) : List Photo :=
  a.photos.filter (fun p => decide (p.uuid ∉ syncedUuids ledger a.title))

/-- Lines 313-318: for each shared album, keep its pending photos, and
drop albums whose pending list is empty. -/
def computeBacklog (shared : List Album) (ledger : Ledger) : List (Album × List Photo) :=
  shared.filterMap (fun a =>
    if (pendingPhotos ledger a).isEmpty then none else some (a, pendingPhotos ledger a))

/-! ## Run model: orchestration (main and download_and_upload_missing) -/

/-- Outcome of one `find_or_create_album` call as the orchestrator sees it. -/
inductive ResolveResult where
  /-- returned this album id. -/
  | ok (gid : String)
  /-- raised `HttpError` with `resp.status == 403` and
  "insufficient authentication scopes" in its text (line 344). -/
  | scopeError
  /-- raised any other `HttpError`. -/
  | otherHttpError
deriving DecidableEq, Repr

/-- Outcome of one `osxphotos export` subprocess invocation (line 213). -/
inductive ExportResult where
  /-- exited 0. -/
  | ok
  /-- `subprocess.TimeoutExpired` (the 300-second timeout, line 213). -/
  | timeout
  /-- `subprocess.CalledProcessError` with this captured stdout/stderr. -/
  | failed (stdout : String) (stderr : String)
deriving DecidableEq, Repr

/-- The diagnostic signature line 226 looks for. -/
def authSig : String := "could not get authorization"

/-- Does `hay` start with `needle`? -/
def startsWithList (needle hay : List Char) : Bool :=
  match needle, hay with
  | [], _ => true
  | _ :: _, [] => false
  | n :: ns, h :: hs => n == h && startsWithList ns hs

/-- Does `needle` occur as a contiguous run inside `hay`? -/
def hasSubList (needle : List Char) : List Char → Bool
  | [] => needle.isEmpty
  | c :: cs => startsWithList needle (c :: cs) || hasSubList needle cs

/-- Python `needle in hay` on strings. -/
def strContains (hay needle : String) : Bool :=
  hasSubList needle.toList hay.toList

/-- Line 226: `"could not get authorization" in e.stdout or ... in e.stderr`. -/
def hasAuthSig (out err : String) : Bool :=
  strContains out authSig || strContains err authSig

/-- Oracles for everything outside the engine: each field gives the
observable response of one collaborator call. `exportPhoto` returning
`none` models `photo.export` raising (caught at line 378); `uploadFile`
gives the observable outcome of `upload_photo` on that file path. -/
structure Env where
  /-- `find_or_create_album` for this title, first (pre-re-auth) attempt. -/
  resolveFirst : String → ResolveResult
  /-- `find_or_create_album` for this title after forced re-authentication. -/
  resolveRetry : String → ResolveResult
  /-- `photo.export(temp_dir)` by uuid: `none` = raised, `some l` = returned `l`. -/
  exportPhoto : String → Option (List String)
  /-- outcome of `upload_photo(service, path, g_id)` for this file path. -/
  uploadFile : String → UploadOutcome
  /-- the `osxphotos export` subprocess on this uuid chunk. -/
  exportChunk : List String → ExportResult
  /-- `glob.glob(os.path.join(temp_dir, uuid + ".*"))` for this uuid. -/
  foundFiles : String → List String

/-- How a (partial) run ended. -/
inductive RunStatus where
  /-- fell through normally. -/
  | completed
  /-- `return` after the second resolution failure (line 360). -/
  | haltedScope
  /-- `sys.exit(1)` on the recovery authorization failure (line 232). -/
  | exitedAuth
  /-- an uncaught exception propagated out of `main`. -/
  | raisedExn
deriving DecidableEq, Repr

/-- Externally visible side-effecting calls, for the frame claims. -/
inductive CallEvent where
  /-- a `find_or_create_album` call that reaches the remote service. -/
  | resolveAlbum (title : String)
  /-- deleting `token.pickle` and re-running the auth flow (lines 345-350). -/
  | reauth
  /-- an `upload_photo` invocation (at least one remote byte-upload request). -/
  | transfer (path : String)
  /-- one `osxphotos export` subprocess invocation for this uuid chunk. -/
  | recoverChunk (uuids : List String)
deriving DecidableEq, Repr

/-- Observable effects of a run fragment: how it ended, the rows it
INSERTed into `uploads` (in order), and the collaborator calls it made. -/
structure RunOut where
  status : RunStatus
  inserts : Ledger
  calls : List CallEvent
deriving DecidableEq, Repr

/-- Sequencing: run `b` only if `a` fell through normally. -/
def RunOut.andThen (a b : RunOut) : RunOut :=
  match a.status with
  | .completed => ⟨b.status, a.inserts ++ b.inserts, a.calls ++ b.calls⟩
  | s => ⟨s, a.inserts, a.calls⟩

/-- Run a step for each list element in order, stopping at the first one
that does not complete normally. -/
def runList (f : α → RunOut) : List α → RunOut
  | [] => ⟨.completed, [], []⟩
  | x :: xs => (f x).andThen (runList f xs)

/-- Python `l[i:i+n]` chunking (`range(0, len(l), n)`), by fuel on length. -/
def chunksOfGo (n : Nat) : Nat → List α → List (List α)
  | 0, _ => []
  | _, [] => []
  | fuel + 1, x :: xs => ((x :: xs).take n) :: chunksOfGo n fuel ((x :: xs).drop n)

/-- Partition a list into consecutive chunks of size `n` (last one shorter). -/
def chunksOf (n : Nat) (l : List α) : List (List α) :=
  chunksOfGo n l.length l

/-- The recovery chunk size (line 186). -/
def chunk_size : Nat := 50

/-- The recovery subprocess timeout in seconds (line 213). -/
def export_timeout : Nat := 300

/-- Lines 238-259: for one recovered photo, look for files named by its
uuid; none found = still missing (skip); otherwise upload the first found
file and INSERT the ledger row only when `upload_photo` was truthy. An
exception escaping `upload_photo` propagates (no handler here). -/
def recoverPhotoStep (env : Env) (title : String) (p : Photo) : RunOut :=
  match env.foundFiles p.uuid with
  | [] => ⟨.completed, [], []⟩
  | f :: _ =>
    match env.uploadFile f with
    | .success => ⟨.completed, [(p.uuid, title)], [.transfer f]⟩
    | .raisedExn => ⟨.raisedExn, [], [.transfer f]⟩
    | _ => ⟨.completed, [], [.transfer f]⟩

/-- Lines 205-259: one chunk of missing photos: invoke the export
subprocess; on timeout skip the chunk (`continue`); on failure with the
authorization signature `sys.exit(1)`; on any other failure skip the
chunk; on success process each photo of the chunk. -/
def recoverChunkStep (env : Env) (title : String) (c : List Photo) : RunOut :=
  let ev : CallEvent := .recoverChunk (c.map Photo.uuid)
  match env.exportChunk (c.map Photo.uuid) with
  | .timeout => ⟨.completed, [], [ev]⟩
  | .failed out err =>
    if hasAuthSig out err then ⟨.exitedAuth, [], [ev]⟩
    else ⟨.completed, [], [ev]⟩
  | .ok => (⟨.completed, [], [ev]⟩ : RunOut).andThen (runList (recoverPhotoStep env title) c)

/-- `download_and_upload_missing` (lines 178-265): process the missing
photos in chunks of 50. -/
def download_and_upload_missing (env : Env) (title : String) (missing : List Photo) : RunOut :=
  runList (recoverChunkStep env title) (chunksOf chunk_size missing)

/-- Lines 369-402, one photo of the main loop (non-dry-run): export
locally (an exception is caught, giving `exported = []`); an empty export
queues the photo for recovery (`some p` in the second component);
otherwise upload the first exported file and INSERT only on a truthy
result; an exception escaping `upload_photo` propagates. -/
def syncPhotoStep (env : Env) (title : String) (p : Photo) : RunOut × Option Photo :=
  let exported := (env.exportPhoto p.uuid).getD []
  match exported with
  | [] => (⟨.completed, [], []⟩, some p)
  | f :: _ =>
    match env.uploadFile f with
    | .success => (⟨.completed, [(p.uuid, title)], [.transfer f]⟩, none)
    | .raisedExn => (⟨.raisedExn, [], [.transfer f]⟩, none)
    | _ => (⟨.completed, [], [.transfer f]⟩, none)

/-- The main per-photo loop over an album's pending photos, accumulating
the missing-photo queue; an uncaught exception aborts the loop (and the
queue is never consumed). -/
def syncPhotos (env : Env) (title : String) : List Photo → RunOut × List Photo
  | [] => (⟨.completed, [], []⟩, [])
  | p :: ps =>
    let st := syncPhotoStep env title p
    match st.1.status with
    | .completed =>
      let rest := syncPhotos env title ps
      (st.1.andThen rest.1, st.2.toList ++ rest.2)
    | _ => (st.1, [])

/-- Lines 341-362 and 86-88: resolve the album title to a remote id.
Dry-run returns the sentinel with no remote call. A scope error deletes
the cached token, re-authenticates and retries exactly once; a second
`HttpError` ends the run (`return`); a non-scope `HttpError` is
re-raised. Returns the id (when obtained) and the observable effects. -/
def resolveStep (env : Env) (title : String) (dryRun : Bool) : Option String × RunOut :=
  if dryRun then (some "DRY_RUN_ID", ⟨.completed, [], []⟩)
  else
    match env.resolveFirst title with
    | .ok g => (some g, ⟨.completed, [], [.resolveAlbum title]⟩)
    | .otherHttpError => (none, ⟨.raisedExn, [], [.resolveAlbum title]⟩)
    | .scopeError =>
      match env.resolveRetry title with
      | .ok g => (some g, ⟨.completed, [], [.resolveAlbum title, .reauth, .resolveAlbum title]⟩)
      | _ => (none, ⟨.haltedScope, [], [.resolveAlbum title, .reauth, .resolveAlbum title]⟩)

/-- Lines 338-406, one album of the backlog: resolve its id, then (unless
dry-run, where every photo is only printed) run the per-photo loop and
feed the accumulated missing photos to recovery. -/
def syncAlbum (env : Env) (dryRun : Bool) (a : Album) (ps : List Photo) : RunOut :=
  let rs := resolveStep env a.title dryRun
  if rs.2.status = .completed then
    if dryRun then rs.2
    else
      let m := syncPhotos env a.title ps
      rs.2.andThen (m.1.andThen (download_and_upload_missing env a.title m.2))
  else rs.2

/-- The main album loop (line 338). -/
def runAlbums (env : Env) (dryRun : Bool) (backlog : List (Album × List Photo)) : RunOut :=
  runList (fun ap => syncAlbum env dryRun ap.1 ap.2) backlog

/-- `main` after startup (lines 308-406): compute the backlog, optionally
truncate it to the first `n` albums (`--num`), run the album loop, and
return the observable effects together with the final `uploads` table. -/
def runMain (env : Env) (dryRun : Bool) (numLimit : Option Nat) (shared : List Album)
    (ledger0 : Ledger) : RunOut × Ledger :=
  let backlog0 := computeBacklog shared ledger0
  let backlog := match numLimit with
    | none => backlog0
    | some n => backlog0.take n
  let r := runAlbums env dryRun backlog
  (r, ledger0 ++ r.inserts)

/-- An insert for uuid `u` is justified: some file of `u` (from the local
export in the main loop, or from the recovery download) was uploaded with
a confirmed success. -/
def uploadConfirmed (env : Env) (u : String) : Prop :=
  (∃ f rest, env.exportPhoto u = some (f :: rest) ∧ env.uploadFile f = .success) ∨
  (∃ f rest, env.foundFiles u = f :: rest ∧ env.uploadFile f = .success)

/-! ## Concrete transports, photos, albums and environments used in
witnesses and counterexamples -/

/-- A byte-upload transport that is always rate-limited. -/
def p1RateLimited : Nat → ByteResp := fun _ => .httpFail 429

/-- A byte-upload transport that always fails with a connection issue. -/
def p1Conn : Nat → ByteResp := fun _ => .connIssue

/-- A byte-upload transport that immediately returns a token. -/
def p1Ok : Nat → ByteResp := fun _ => .ok "tok1"

/-- A commit transport that is always rate-limited. -/
def p2RateLimited : Nat → CommitResp := fun _ => .httpFail 429

/-- A commit response whose single item status message is `Success`. -/
def successResp : BatchResponse := ⟨some [⟨some ⟨some "Success"⟩⟩], false⟩

/-- A commit transport that immediately confirms success. -/
def p2Ok : Nat → CommitResp := fun _ => .ok successResp

/-- The malformed commit response `{"newMediaItemResults": []}`. -/
def emptyResultsResp : BatchResponse := ⟨some [], false⟩

/-- A commit transport returning the malformed empty-results response. -/
def p2EmptyResults : Nat → CommitResp := fun _ => .ok emptyResultsResp

/-- Concrete photos for witnesses. -/
def photoA : Photo := ⟨"u1", "IMG_1.jpg"⟩

/-- Second concrete photo. -/
def photoB : Photo := ⟨"u2", "IMG_2.jpg"⟩

/-- Concrete album holding the two photos. -/
def albumT : Album := ⟨"Trip", [photoA, photoB]⟩

/-- Photos and albums of the backlog example of the specification. -/
def photo_a : Photo := ⟨"a", "a.jpg"⟩

/-- Backlog-example photo `b`. -/
def photo_b : Photo := ⟨"b", "b.jpg"⟩

/-- Backlog-example photo `c`. -/
def photo_c : Photo := ⟨"c", "c.jpg"⟩

/-- Backlog-example photo `d`. -/
def photo_d : Photo := ⟨"d", "d.jpg"⟩

/-- Backlog-example destination D1 with items a, b, c. -/
def albumD1 : Album := ⟨"D1", [photo_a, photo_b, photo_c]⟩

/-- Backlog-example destination D2 with items a, d. -/
def albumD2 : Album := ⟨"D2", [photo_a, photo_d]⟩

/-- An environment where everything succeeds. -/
def envHappy : Env where
  resolveFirst := fun _ => .ok "G1"
  resolveRetry := fun _ => .ok "G1"
  exportPhoto := fun u => some ["/tmp/" ++ u]
  uploadFile := fun _ => .success
  exportChunk := fun _ => .ok
  foundFiles := fun _ => []

/-- An environment whose album resolution always reports an
insufficient-scope error, before and after re-authentication. -/
def envScope : Env :=
  { envHappy with resolveFirst := fun _ => .scopeError, resolveRetry := fun _ => .scopeError }

/-- An environment where the recovery subprocess times out on the chunk
`["u1"]` and succeeds elsewhere, and recovered files exist. -/
def envTimeout : Env :=
  { envHappy with
    exportPhoto := fun _ => some []
    exportChunk := fun us => if us = ["u1"] then .timeout else .ok
    foundFiles := fun u => ["/rec/" ++ u] }

/-- An environment where every upload raises an uncaught exception
(as the malformed empty-results commit response does). -/
def envRaise : Env := { envHappy with uploadFile := fun _ => .raisedExn }

/-! ## Helper lemmas: the retry phases -/

theorem uploadBytesGo_all_retryable (resp : Nat → ByteResp)
    (h : ∀ a, (resp a).isRetryable = true) :
    ∀ r a, uploadBytesGo resp a r = ⟨.exhausted, r, (List.range' a r).map (2 ^ ·)⟩ := by
  intro r
  induction r with
  | zero => intro a; simp [uploadBytesGo, List.range'_zero]
  | succ n ih =>
    intro a
    have hr := h a
    cases hra : resp a with
    | ok t => rw [hra] at hr; simp [ByteResp.isRetryable] at hr
    | httpFail s =>
      rw [hra] at hr
      simp only [ByteResp.isRetryable] at hr
      simp [uploadBytesGo, hra, hr, ih, List.range'_succ]
    | connIssue => simp [uploadBytesGo, hra, ih, List.range'_succ]
    | otherReqError => rw [hra] at hr; simp [ByteResp.isRetryable] at hr

theorem createMediaGo_all_retryable (resp : Nat → CommitResp)
    (h : ∀ a, (resp a).isRetryable = true) :
    ∀ r a, createMediaGo resp a r = ⟨.exhausted, r, (List.range' a r).map (2 ^ ·)⟩ := by
  intro r
  induction r with
  | zero => intro a; simp [createMediaGo, List.range'_zero]
  | succ n ih =>
    intro a
    have hr := h a
    cases hra : resp a with
    | ok b => rw [hra] at hr; simp [CommitResp.isRetryable] at hr
    | httpFail s =>
      rw [hra] at hr
      simp only [CommitResp.isRetryable] at hr
      simp [createMediaGo, hra, hr, ih, List.range'_succ]

theorem uploadBytesGo_delays_shape (resp : Nat → ByteResp) :
    ∀ r a, ∃ m, m ≤ r ∧ (uploadBytesGo resp a r).delays = (List.range' a m).map (2 ^ ·) := by
  intro r
  induction r with
  | zero => intro a; exact ⟨0, Nat.le_refl 0, by simp [uploadBytesGo, List.range'_zero]⟩
  | succ n ih =>
    intro a
    cases hra : resp a with
    | ok t => exact ⟨0, Nat.zero_le _, by simp [uploadBytesGo, hra, List.range'_zero]⟩
    | httpFail s =>
      by_cases hs : retryableStatus s = true
      · obtain ⟨m, hm, hd⟩ := ih (a + 1)
        exact ⟨m + 1, Nat.succ_le_succ hm,
          by simp [uploadBytesGo, hra, hs, hd, List.range'_succ]⟩
      · exact ⟨0, Nat.zero_le _, by simp [uploadBytesGo, hra, hs, List.range'_zero]⟩
    | connIssue =>
      obtain ⟨m, hm, hd⟩ := ih (a + 1)
      exact ⟨m + 1, Nat.succ_le_succ hm,
        by simp [uploadBytesGo, hra, hd, List.range'_succ]⟩
    | otherReqError => exact ⟨0, Nat.zero_le _, by simp [uploadBytesGo, hra, List.range'_zero]⟩

theorem createMediaGo_delays_shape (resp : Nat → CommitResp) :
    ∀ r a, ∃ m, m ≤ r ∧ (createMediaGo resp a r).delays = (List.range' a m).map (2 ^ ·) := by
  intro r
  induction r with
  | zero => intro a; exact ⟨0, Nat.le_refl 0, by simp [createMediaGo, List.range'_zero]⟩
  | succ n ih =>
    intro a
    cases hra : resp a with
    | ok b => exact ⟨0, Nat.zero_le _, by simp [createMediaGo, hra, List.range'_zero]⟩
    | httpFail s =>
      by_cases hs : retryableStatus s = true
      · obtain ⟨m, hm, hd⟩ := ih (a + 1)
        exact ⟨m + 1, Nat.succ_le_succ hm,
          by simp [createMediaGo, hra, hs, hd, List.range'_succ]⟩
      · exact ⟨0, Nat.zero_le _, by simp [createMediaGo, hra, hs, List.range'_zero]⟩

theorem pairwise_lt_pow_range' (s m : Nat) :
    (((List.range' s m).map (2 ^ ·)).Pairwise (fun x y => x < y)) := by
  rw [List.pairwise_map]
  exact (List.pairwise_lt_range' s m).imp (fun h => Nat.pow_lt_pow_right (by norm_num) h)

theorem delaysWithJitter_pow_mem (j : Nat → ℚ) (hj : ∀ k, 0 ≤ j k ∧ j k < 1) :
    ∀ (m s : Nat) (q : ℚ), q ∈ delaysWithJitter j ((List.range' s m).map (2 ^ ·)) s →
      ∃ k, q = 2 ^ k + j k ∧ (2 ^ k : ℚ) ≤ q ∧ q < 2 ^ k + 1 := by
  intro m
  induction m with
  | zero => intro s q hq; simp [List.range'_zero, delaysWithJitter] at hq
  | succ n ih =>
    intro s q hq
    rw [List.range'_succ, List.map_cons] at hq
    simp only [delaysWithJitter, List.mem_cons] at hq
    rcases hq with hq | hq
    · refine ⟨s, ?_, ?_, ?_⟩
      · rw [hq]; push_cast; ring
      · rw [hq]; push_cast; linarith [(hj s).1]
      · rw [hq]; push_cast; linarith [(hj s).2]
    · exact ih (s + 1) q hq

/-! ## Helper lemmas: outcomes of upload_photo -/

theorem commitOutcome_success_iff (resp : BatchResponse) :
    commitOutcome resp = .success ↔ commitStatusMessage resp = .ok (some "Success") := by
  unfold commitOutcome
  rcases resp with ⟨nr, ok⟩
  rcases nr with _ | l
  · rcases ok <;> simp [commitStatusMessage, BatchResponse.isTruthy]
  · rcases l with _ | ⟨e, rest⟩
    · simp [commitStatusMessage, BatchResponse.isTruthy]
    · simp only [commitStatusMessage, BatchResponse.isTruthy, Option.isSome_some,
        Bool.true_or, Bool.not_true, if_false]
      rcases e with ⟨st⟩
      rcases st with _ | ⟨⟨m⟩⟩
      · simp
      · by_cases hs : m = some "Success" <;> simp [hs]

theorem phase2Outcome_ne_unresolved (r2 : PhaseRun P2Result) :
    phase2Outcome r2 ≠ .unresolved := by
  unfold phase2Outcome
  rcases h : r2.result with resp | _ | _
  · unfold commitOutcome
    by_cases hT : (!resp.isTruthy) = true
    · simp [hT]
    · simp only [hT, if_false]
      rcases hm : commitStatusMessage resp with e | m
      · simp
      · by_cases hs : m = some "Success" <;> simp [hs]
  · simp
  · simp

theorem upload_photo_phase1_no_token (p1 : Nat → ByteResp) (p2 : Nat → CommitResp)
    (h : (uploadBytesWithRetry p1).result = .raised ∨
         (uploadBytesWithRetry p1).result = .exhausted ∨
         (uploadBytesWithRetry p1).result = .token "") :
    upload_photo p1 p2 = ⟨.unresolved, uploadBytesWithRetry p1, none⟩ := by
  unfold upload_photo
  rcases h with h | h | h <;> rw [h]
  rfl

theorem upload_photo_token (p1 : Nat → ByteResp) (p2 : Nat → CommitResp)
    (t : String) (ht : (uploadBytesWithRetry p1).result = .token t) (hne : t ≠ "") :
    upload_photo p1 p2 = ⟨phase2Outcome (createMediaWithRetry p2),
      uploadBytesWithRetry p1, some (createMediaWithRetry p2)⟩ := by
  unfold upload_photo
  rw [ht]
  simp [hne]

theorem upload_photo_commit_bad (p1 : Nat → ByteResp) (p2 : Nat → CommitResp)
    (t : String) (ht : (uploadBytesWithRetry p1).result = .token t) (hne : t ≠ "")
    (h2 : (createMediaWithRetry p2).result = .exhausted ∨
          (createMediaWithRetry p2).result = .raised) :
    (upload_photo p1 p2).outcome = .failed := by
  rw [upload_photo_token p1 p2 t ht hne]
  show phase2Outcome (createMediaWithRetry p2) = .failed
  unfold phase2Outcome
  rcases h2 with h2 | h2 <;> rw [h2]

theorem upload_photo_success_shape (p1 : Nat → ByteResp) (p2 : Nat → CommitResp)
    (h : (upload_photo p1 p2).outcome = .success) :
    ∃ r, (createMediaWithRetry p2).result = .done r ∧
      commitStatusMessage r = .ok (some "Success") := by
  rcases h1 : (uploadBytesWithRetry p1).result with t | _ | _
  · by_cases hne : t = ""
    · rw [upload_photo_phase1_no_token p1 p2 (Or.inr (Or.inr (hne ▸ h1)))] at h
      simp at h
    · rw [upload_photo_token p1 p2 t h1 hne] at h
      have hs : phase2Outcome (createMediaWithRetry p2) = .success := h
      unfold phase2Outcome at hs
      rcases h2 : (createMediaWithRetry p2).result with resp | _ | _ <;> rw [h2] at hs
      · exact ⟨resp, rfl, (commitOutcome_success_iff resp).mp hs⟩
      · simp at hs
      · simp at hs
  · rw [upload_photo_phase1_no_token p1 p2 (Or.inr (Or.inl h1))] at h
    simp at h
  · rw [upload_photo_phase1_no_token p1 p2 (Or.inl h1)] at h
    simp at h

theorem upload_photo_unresolved_iff (p1 : Nat → ByteResp) (p2 : Nat → CommitResp) :
    (upload_photo p1 p2).outcome = .unresolved ↔
      ((uploadBytesWithRetry p1).result = .raised ∨
       (uploadBytesWithRetry p1).result = .exhausted ∨
       (uploadBytesWithRetry p1).result = .token "") := by
  constructor
  · intro h
    rcases h1 : (uploadBytesWithRetry p1).result with t | _ | _
    · by_cases hne : t = ""
      · exact Or.inr (Or.inr (by rw [hne]))
      · rw [upload_photo_token p1 p2 t h1 hne] at h
        exact absurd h (phase2Outcome_ne_unresolved _)
    · exact Or.inr (Or.inl rfl)
    · exact Or.inl rfl
  · intro h
    rw [upload_photo_phase1_no_token p1 p2 h]

/-! ## Helper lemmas: backlog -/

theorem mem_syncedUuids {l : Ledger} {t u : String} :
    u ∈ syncedUuids l t ↔ (u, t) ∈ l := by
  simp only [syncedUuids, List.mem_map, List.mem_filter, beq_iff_eq]
  constructor
  · rintro ⟨⟨x, y⟩, ⟨hmem, ht⟩, hu⟩
    simp only at ht hu
    subst ht
    subst hu
    exact hmem
  · intro h
    exact ⟨(u, t), ⟨h, rfl⟩, rfl⟩

/-- The filter of the pending-work calculator, rephrased through ledger
pair membership. -/
theorem pendingPhotos_eq (a : Album) (ledger : Ledger) :
    pendingPhotos ledger a =
    a.photos.filter (fun p => decide ((p.uuid, a.title) ∉ ledger)) := by
  apply List.filter_congr
  intro p _
  simp [mem_syncedUuids]

theorem mem_computeBacklog {shared : List Album} {ledger : Ledger} {a : Album}
    {ps : List Photo} :
    (a, ps) ∈ computeBacklog shared ledger ↔
      a ∈ shared ∧ ps ≠ [] ∧ ps = pendingPhotos ledger a := by
  constructor
  · intro h
    obtain ⟨x, hx, hfx⟩ := List.mem_filterMap.mp h
    by_cases he : (pendingPhotos ledger x).isEmpty = true
    · rw [if_pos he] at hfx
      cases hfx
    · rw [if_neg he] at hfx
      simp only [Option.some.injEq, Prod.mk.injEq] at hfx
      obtain ⟨rfl, rfl⟩ := hfx
      exact ⟨hx, fun hnil => he (List.isEmpty_iff.mpr hnil), rfl⟩
  · rintro ⟨ha, hne, hps⟩
    apply List.mem_filterMap.mpr
    refine ⟨a, ha, ?_⟩
    have he : ¬((pendingPhotos ledger a).isEmpty = true) := by
      intro hq
      exact hne (hps.trans (List.isEmpty_iff.mp hq))
    rw [if_neg he, hps]

/-! ## Claim theorems C2-C5 -/

/-- C2: the pending-work calculation returns, per listed destination, the
items not recorded in the ledger under that destination's name, in native
order (the listing's filter), omitting destinations with nothing pending;
on D1 = {a,b,c}, D2 = {a,d} and ledger {(a,D1)} it yields exactly
{D1: [b,c], D2: [a,d]}. -/
theorem backlog_correct :
    (∀ (shared : List Album) (ledger : Ledger) (a : Album) (ps : List Photo),
       (a, ps) ∈ computeBacklog shared ledger →
         a ∈ shared ∧ ps ≠ [] ∧
         ps = a.photos.filter (fun p => decide ((p.uuid, a.title) ∉ ledger))) ∧
    (∀ (shared : List Album) (ledger : Ledger) (a : Album),
       a ∈ shared →
       a.photos.filter (fun p => decide ((p.uuid, a.title) ∉ ledger)) ≠ [] →
       (a, a.photos.filter (fun p => decide ((p.uuid, a.title) ∉ ledger))) ∈
         computeBacklog shared ledger) ∧
    computeBacklog [albumD1, albumD2] [("a", "D1")] =
      [(albumD1, [photo_b, photo_c]), (albumD2, [photo_a, photo_d])] := by
  refine ⟨?_, ?_, by decide⟩
  · intro shared ledger a ps h
    obtain ⟨ha, hne, hps⟩ := mem_computeBacklog.mp h
    exact ⟨ha, hne, by rw [hps, pendingPhotos_eq]⟩
  · intro shared ledger a ha hne
    exact mem_computeBacklog.mpr ⟨ha, hne, (pendingPhotos_eq a ledger).symm⟩

/-- C2 witness: the characterization applied to the concrete example. -/
theorem backlog_correct_witness :
    albumD1 ∈ [albumD1, albumD2] ∧ ([photo_b, photo_c] : List Photo) ≠ [] ∧
    [photo_b, photo_c] = albumD1.photos.filter
      (fun p => decide ((p.uuid, albumD1.title) ∉ ([("a", "D1")] : Ledger))) :=
  backlog_correct.1 [albumD1, albumD2] [("a", "D1")] albumD1 [photo_b, photo_c] (by decide)

/-- C3 counterexample: with a token obtained and an always-rate-limited
commit transport, the commit phase exhausts its retries — it never
completes a request — yet the transfer returns False, not the distinct
error outcome (None). -/
theorem commit_exhaustion_returns_false :
    (createMediaWithRetry p2RateLimited).result = .exhausted ∧
    (upload_photo p1Ok p2RateLimited).outcome = .failed ∧
    UploadOutcome.failed ≠ UploadOutcome.unresolved := by
  refine ⟨by decide, by decide, by decide⟩

/-- C3 (amended): the transfer returns True only when the commit response
confirms per-item Success; the error outcome (None) occurs exactly when
the byte-upload phase yields no usable token (non-retryable failure,
retry exhaustion, or empty token); every commit-phase failure — retry
exhaustion, non-retryable error or confirmed non-success — returns False. -/
theorem upload_photo_outcomes (p1 : Nat → ByteResp) (p2 : Nat → CommitResp) :
    ((upload_photo p1 p2).outcome = .success →
       ∃ r, (createMediaWithRetry p2).result = .done r ∧
         commitStatusMessage r = .ok (some "Success")) ∧
    ((upload_photo p1 p2).outcome = .unresolved ↔
       ((uploadBytesWithRetry p1).result = .raised ∨
        (uploadBytesWithRetry p1).result = .exhausted ∨
        (uploadBytesWithRetry p1).result = .token "")) ∧
    (∀ t, (uploadBytesWithRetry p1).result = .token t → t ≠ "" →
       ((createMediaWithRetry p2).result = .exhausted ∨
        (createMediaWithRetry p2).result = .raised) →
       (upload_photo p1 p2).outcome = .failed) :=
  ⟨upload_photo_success_shape p1 p2, upload_photo_unresolved_iff p1 p2,
   fun t ht hne h2 => upload_photo_commit_bad p1 p2 t ht hne h2⟩

/-- C3 witness: the amended characterization applied to concrete
transports: a good token followed by an always-rate-limited commit phase
returns False. -/
theorem upload_photo_outcomes_witness :
    (upload_photo p1Ok p2RateLimited).outcome = .failed :=
  (upload_photo_outcomes p1Ok p2RateLimited).2.2 "tok1" (by decide) (by decide)
    (Or.inl (by decide))

/-- C4 counterexample: against an always-rate-limited transport the
byte-upload phase's pre-jitter sleeps are 1, 2, 4, 8, 16 (the exponent is
the zero-based attempt index), not the 2, 4, 8, 16, 32 the claim
states. -/
theorem retry_delays_counterexample :
    (uploadBytesWithRetry p1RateLimited).delays = [1, 2, 4, 8, 16] ∧
    (uploadBytesWithRetry p1RateLimited).delays ≠ [2, 4, 8, 16, 32] := by
  refine ⟨by decide, by decide⟩

/-- C4 (amended): in each phase the pre-jitter delay before retry attempt
k (k ≥ 1) is 2^(k-1): the recorded sleeps are 2^0, 2^1, ... in order (at
most five of them), strictly increasing, and each actual sleep lies in
[2^(k-1), 2^(k-1) + 1) once its uniform jitter draw in [0,1) is added. -/
theorem retry_backoff_delays (p1 : Nat → ByteResp) (p2 : Nat → CommitResp)
    (j : Nat → ℚ) (hj : ∀ k, 0 ≤ j k ∧ j k < 1) :
    ((∃ m, m ≤ 5 ∧ (uploadBytesWithRetry p1).delays = (List.range' 0 m).map (2 ^ ·)) ∧
     (∃ m, m ≤ 5 ∧ (createMediaWithRetry p2).delays = (List.range' 0 m).map (2 ^ ·))) ∧
    ((uploadBytesWithRetry p1).delays.Pairwise (fun x y => x < y) ∧
     (createMediaWithRetry p2).delays.Pairwise (fun x y => x < y)) ∧
    ((∀ q ∈ delaysWithJitter j (uploadBytesWithRetry p1).delays 0,
        ∃ k, q = 2 ^ k + j k ∧ (2 ^ k : ℚ) ≤ q ∧ q < 2 ^ k + 1) ∧
     (∀ q ∈ delaysWithJitter j (createMediaWithRetry p2).delays 0,
        ∃ k, q = 2 ^ k + j k ∧ (2 ^ k : ℚ) ≤ q ∧ q < 2 ^ k + 1)) := by
  obtain ⟨m1, hm1, hd1⟩ := uploadBytesGo_delays_shape p1 5 0
  obtain ⟨m2, hm2, hd2⟩ := createMediaGo_delays_shape p2 5 0
  have hD1 : (uploadBytesWithRetry p1).delays = (List.range' 0 m1).map (2 ^ ·) := hd1
  have hD2 : (createMediaWithRetry p2).delays = (List.range' 0 m2).map (2 ^ ·) := hd2
  refine ⟨⟨⟨m1, hm1, hD1⟩, ⟨m2, hm2, hD2⟩⟩, ⟨?_, ?_⟩, ⟨?_, ?_⟩⟩
  · rw [hD1]; exact pairwise_lt_pow_range' 0 m1
  · rw [hD2]; exact pairwise_lt_pow_range' 0 m2
  · rw [hD1]; exact delaysWithJitter_pow_mem j hj m1 0
  · rw [hD2]; exact delaysWithJitter_pow_mem j hj m2 0

/-- C4 witness: the amended statement applied to the always-rate-limited
transports with zero jitter. -/
theorem retry_backoff_delays_witness :
    ∃ m, m ≤ 5 ∧ (uploadBytesWithRetry p1RateLimited).delays = (List.range' 0 m).map (2 ^ ·) :=
  (retry_backoff_delays p1RateLimited p2RateLimited (fun _ => 0)
    (fun _ => ⟨le_refl 0, by norm_num⟩)).1.1

/-- C5: against an always-retryable remote each phase makes exactly 5
attempts and then reports failure (the item stays unsynced, nothing
raises); and the phases have independent budgets: whenever phase 1
produces a usable token, phase 2 runs its own fresh five-attempt loop
regardless of what phase 1 consumed. -/
theorem retry_budget_five (p1 : Nat → ByteResp) (p2 : Nat → CommitResp) :
    ((∀ a, (p1 a).isRetryable = true) →
       (uploadBytesWithRetry p1).attempts = 5 ∧
       (uploadBytesWithRetry p1).result = .exhausted ∧
       (upload_photo p1 p2).outcome = .unresolved) ∧
    ((∀ a, (p2 a).isRetryable = true) →
       (createMediaWithRetry p2).attempts = 5 ∧
       (createMediaWithRetry p2).result = .exhausted) ∧
    (∀ t, (uploadBytesWithRetry p1).result = .token t → t ≠ "" →
       (upload_photo p1 p2).phase2 = some (createMediaWithRetry p2) ∧
       ((∀ a, (p2 a).isRetryable = true) →
          (upload_photo p1 p2).outcome = .failed ∧
          (createMediaWithRetry p2).attempts = 5)) := by
  refine ⟨?_, ?_, ?_⟩
  · intro h
    have he := uploadBytesGo_all_retryable p1 h 5 0
    have hres : (uploadBytesWithRetry p1).result = .exhausted := by
      rw [show uploadBytesWithRetry p1 = uploadBytesGo p1 0 5 from rfl, he]
    refine ⟨?_, hres, ?_⟩
    · rw [show uploadBytesWithRetry p1 = uploadBytesGo p1 0 5 from rfl, he]
    · exact (upload_photo_unresolved_iff p1 p2).mpr (Or.inr (Or.inl hres))
  · intro h
    have he := createMediaGo_all_retryable p2 h 5 0
    constructor
    · rw [show createMediaWithRetry p2 = createMediaGo p2 0 5 from rfl, he]
    · rw [show createMediaWithRetry p2 = createMediaGo p2 0 5 from rfl, he]
  · intro t ht hne
    constructor
    · rw [upload_photo_token p1 p2 t ht hne]
    · intro h
      have he := createMediaGo_all_retryable p2 h 5 0
      have hres : (createMediaWithRetry p2).result = .exhausted := by
        rw [show createMediaWithRetry p2 = createMediaGo p2 0 5 from rfl, he]
      refine ⟨upload_photo_commit_bad p1 p2 t ht hne (Or.inl hres), ?_⟩
      rw [show createMediaWithRetry p2 = createMediaGo p2 0 5 from rfl, he]

/-- C5 witness: both phases at concrete always-retryable transports. -/
theorem retry_budget_five_witness :
    (uploadBytesWithRetry p1Conn).attempts = 5 ∧
    (upload_photo p1Conn p2RateLimited).outcome = .unresolved ∧
    (upload_photo p1Ok p2RateLimited).outcome = .failed ∧
    (createMediaWithRetry p2RateLimited).attempts = 5 :=
  have h1 := (retry_budget_five p1Conn p2RateLimited).1 (fun _ => rfl)
  have h3 := ((retry_budget_five p1Ok p2RateLimited).2.2 "tok1" (by decide) (by decide)).2
    (fun _ => rfl)
  ⟨h1.1, h1.2.2, h3.1, h3.2⟩

/-! ## Helper lemmas: the run model -/

theorem runList_cons (f : α → RunOut) (x : α) (xs : List α) :
    runList f (x :: xs) = (f x).andThen (runList f xs) := rfl

theorem andThen_completed {a b : RunOut} (h : a.status = .completed) :
    a.andThen b = ⟨b.status, a.inserts ++ b.inserts, a.calls ++ b.calls⟩ := by
  unfold RunOut.andThen
  rw [h]

theorem andThen_not_completed {a b : RunOut} (h : a.status ≠ .completed) :
    a.andThen b = a := by
  rcases a with ⟨st, ins, cs⟩
  rcases st with _ | _ | _ | _
  · exact absurd rfl h
  all_goals rfl

theorem runList_mem_inserts {f : α → RunOut} :
    ∀ {l : List α} {row : String × String},
      row ∈ (runList f l).inserts → ∃ x ∈ l, row ∈ (f x).inserts := by
  intro l
  induction l with
  | nil => intro row h; simp [runList] at h
  | cons x xs ih =>
    intro row h
    rw [runList_cons] at h
    by_cases hs : (f x).status = .completed
    · rw [andThen_completed hs] at h
      rcases List.mem_append.mp h with h | h
      · exact ⟨x, List.mem_cons_self x xs, h⟩
      · obtain ⟨y, hy, hr⟩ := ih h
        exact ⟨y, List.mem_cons_of_mem x hy, hr⟩
    · rw [andThen_not_completed hs] at h
      exact ⟨x, List.mem_cons_self x xs, h⟩

/-- Count version: if each step's inserted uuids are bounded by `g`, the
run's inserted uuids are bounded by the concatenation of the `g`s. -/
theorem runList_count_le {f : α → RunOut} {g : α → List String}
    (hf : ∀ x u, ((f x).inserts.map Prod.fst).count u ≤ (g x).count u) :
    ∀ (l : List α) (u : String),
      ((runList f l).inserts.map Prod.fst).count u ≤ ((l.map g).flatten).count u := by
  intro l
  induction l with
  | nil => intro u; simp [runList]
  | cons x xs ih =>
    intro u
    rw [runList_cons]
    rw [List.map_cons, List.flatten_cons, List.count_append]
    by_cases hs : (f x).status = .completed
    · rw [andThen_completed hs]
      simp only [List.map_append, List.count_append]
      exact Nat.add_le_add (hf x u) (ih u)
    · rw [andThen_not_completed hs]
      exact Nat.le_trans (hf x u) (Nat.le_add_right _ _)

theorem chunksOfGo_flatten {α : Type} (n : Nat) (hn : 0 < n) :
    ∀ (fuel : Nat) (l : List α), l.length ≤ fuel → (chunksOfGo n fuel l).flatten = l := by
  intro fuel
  induction fuel with
  | zero =>
    intro l hl
    rcases l with _ | ⟨x, xs⟩
    · rfl
    · simp at hl
  | succ m ih =>
    intro l hl
    rcases l with _ | ⟨x, xs⟩
    · rfl
    · rw [chunksOfGo, List.flatten_cons, ih _ ?_, List.take_append_drop]
      rw [List.length_drop]
      simp only [List.length_cons] at hl ⊢
      omega

theorem chunksOf_flatten {α : Type} (n : Nat) (hn : 0 < n) (l : List α) :
    (chunksOf n l).flatten = l :=
  chunksOfGo_flatten n hn l.length l (Nat.le_refl _)

theorem flatten_map_singleton {α β : Type} (g : α → β) :
    ∀ l : List α, (l.map (fun x => [g x])).flatten = l.map g := by
  intro l
  induction l with
  | nil => rfl
  | cons x xs ih => simp [ih]

/-! ## Helper lemmas: per-photo steps -/

theorem recoverPhotoStep_cases (env : Env) (title : String) (p : Photo) :
    recoverPhotoStep env title p = ⟨.completed, [], []⟩ ∨
    (∃ f, recoverPhotoStep env title p = ⟨.completed, [(p.uuid, title)], [.transfer f]⟩ ∧
      env.uploadFile f = .success ∧ ∃ rest, env.foundFiles p.uuid = f :: rest) ∨
    (∃ f, recoverPhotoStep env title p = ⟨.raisedExn, [], [.transfer f]⟩) ∨
    (∃ f, recoverPhotoStep env title p = ⟨.completed, [], [.transfer f]⟩) := by
  rcases hf : env.foundFiles p.uuid with _ | ⟨f, rest⟩
  · left
    unfold recoverPhotoStep
    rw [hf]
  · rcases hu : env.uploadFile f with _ | _ | _ | _
    · exact Or.inr (Or.inl ⟨f, by unfold recoverPhotoStep; rw [hf]; simp only [hu], hu, rest, rfl⟩)
    · exact Or.inr (Or.inr (Or.inr ⟨f, by unfold recoverPhotoStep; rw [hf]; simp only [hu]⟩))
    · exact Or.inr (Or.inr (Or.inr ⟨f, by unfold recoverPhotoStep; rw [hf]; simp only [hu]⟩))
    · exact Or.inr (Or.inr (Or.inl ⟨f, by unfold recoverPhotoStep; rw [hf]; simp only [hu]⟩))

theorem recoverPhotoStep_mem {env : Env} {title : String} {p : Photo}
    {row : String × String} (h : row ∈ (recoverPhotoStep env title p).inserts) :
    row = (p.uuid, title) ∧
      ∃ f rest, env.foundFiles p.uuid = f :: rest ∧ env.uploadFile f = .success := by
  rcases recoverPhotoStep_cases env title p with hc | ⟨f, hc, hu, rest, hf⟩ | ⟨f, hc⟩ | ⟨f, hc⟩ <;>
    rw [hc] at h
  · simp at h
  · exact ⟨List.mem_singleton.mp h, f, rest, hf, hu⟩
  · simp at h
  · simp at h

theorem recoverPhotoStep_count (env : Env) (title : String) (p : Photo) (u : String) :
    ((recoverPhotoStep env title p).inserts.map Prod.fst).count u ≤
      ([p.uuid] : List String).count u := by
  rcases recoverPhotoStep_cases env title p with hc | ⟨f, hc, _, _, _⟩ | ⟨f, hc⟩ | ⟨f, hc⟩ <;>
    rw [hc] <;> simp

theorem syncPhotoStep_cases (env : Env) (title : String) (p : Photo) :
    syncPhotoStep env title p = (⟨.completed, [], []⟩, some p) ∨
    (∃ f, syncPhotoStep env title p = (⟨.completed, [(p.uuid, title)], [.transfer f]⟩, none) ∧
      env.uploadFile f = .success ∧ ∃ rest, env.exportPhoto p.uuid = some (f :: rest)) ∨
    (∃ f, syncPhotoStep env title p = (⟨.raisedExn, [], [.transfer f]⟩, none)) ∨
    (∃ f, syncPhotoStep env title p = (⟨.completed, [], [.transfer f]⟩, none)) := by
  rcases he : env.exportPhoto p.uuid with _ | l
  · left
    unfold syncPhotoStep
    rw [he]
    rfl
  · rcases l with _ | ⟨f, rest⟩
    · left
      unfold syncPhotoStep
      rw [he]
      rfl
    · rcases hu : env.uploadFile f with _ | _ | _ | _
      · exact Or.inr (Or.inl ⟨f,
          by unfold syncPhotoStep; rw [he]; simp only [Option.getD_some, hu],
          hu, rest, rfl⟩)
      · exact Or.inr (Or.inr (Or.inr ⟨f,
          by unfold syncPhotoStep; rw [he]; simp only [Option.getD_some, hu]⟩))
      · exact Or.inr (Or.inr (Or.inr ⟨f,
          by unfold syncPhotoStep; rw [he]; simp only [Option.getD_some, hu]⟩))
      · exact Or.inr (Or.inr (Or.inl ⟨f,
          by unfold syncPhotoStep; rw [he]; simp only [Option.getD_some, hu]⟩))

theorem syncPhotos_mem {env : Env} {title : String} :
    ∀ {ps : List Photo} {row : String × String},
      row ∈ (syncPhotos env title ps).1.inserts →
        ∃ p ∈ ps, row = (p.uuid, title) ∧
          ∃ f rest, env.exportPhoto p.uuid = some (f :: rest) ∧
            env.uploadFile f = .success := by
  intro ps
  induction ps with
  | nil => intro row h; simp [syncPhotos] at h
  | cons p ps ih =>
    intro row h
    rcases syncPhotoStep_cases env title p with hc | ⟨f, hc, hu, rest, he⟩ | ⟨f, hc⟩ | ⟨f, hc⟩ <;>
      simp only [syncPhotos, hc] at h
    · rw [andThen_completed rfl] at h
      simp only [List.nil_append] at h
      obtain ⟨q, hq, hrow⟩ := ih h
      exact ⟨q, List.mem_cons_of_mem p hq, hrow⟩
    · rw [andThen_completed rfl] at h
      rcases List.mem_append.mp h with h | h
      · exact ⟨p, List.mem_cons_self p ps, List.mem_singleton.mp h, f, rest, he, hu⟩
      · obtain ⟨q, hq, hrow⟩ := ih h
        exact ⟨q, List.mem_cons_of_mem p hq, hrow⟩
    · simp at h
    · rw [andThen_completed rfl] at h
      simp only [List.nil_append] at h
      obtain ⟨q, hq, hrow⟩ := ih h
      exact ⟨q, List.mem_cons_of_mem p hq, hrow⟩

theorem syncPhotos_missing_subset {env : Env} {title : String} :
    ∀ {ps : List Photo} {q : Photo},
      q ∈ (syncPhotos env title ps).2 → q ∈ ps := by
  intro ps
  induction ps with
  | nil => intro q h; simp [syncPhotos] at h
  | cons p ps ih =>
    intro q h
    rcases syncPhotoStep_cases env title p with hc | ⟨f, hc, _, _, _⟩ | ⟨f, hc⟩ | ⟨f, hc⟩ <;>
      simp only [syncPhotos, hc] at h
    · simp only [Option.toList_some, List.singleton_append, List.mem_cons] at h
      rcases h with rfl | h
      · exact List.mem_cons_self _ _
      · exact List.mem_cons_of_mem _ (ih h)
    · simp only [Option.toList_none, List.nil_append] at h
      exact List.mem_cons_of_mem p (ih h)
    · simp at h
    · simp only [Option.toList_none, List.nil_append] at h
      exact List.mem_cons_of_mem p (ih h)

theorem syncPhotos_count (env : Env) (title : String) :
    ∀ (ps : List Photo) (u : String),
      ((syncPhotos env title ps).1.inserts.map Prod.fst).count u +
        ((syncPhotos env title ps).2.map Photo.uuid).count u ≤
        (ps.map Photo.uuid).count u := by
  intro ps
  induction ps with
  | nil => intro u; simp [syncPhotos]
  | cons p ps ih =>
    intro u
    have hcount := ih u
    rcases syncPhotoStep_cases env title p with hc | ⟨f, hc, _, _, _⟩ | ⟨f, hc⟩ | ⟨f, hc⟩ <;>
      simp only [syncPhotos, hc]
    · rw [andThen_completed rfl]
      simp only [List.nil_append, Option.toList_some, List.singleton_append, List.map_cons,
        List.count_cons]
      split_ifs <;> omega
    · rw [andThen_completed rfl]
      simp only [List.singleton_append, List.map_cons, List.count_cons,
        Option.toList_none, List.nil_append]
      split_ifs <;> omega
    · simp only [List.map_nil, List.count_nil, List.map_cons, List.count_cons, Nat.add_zero]
      split_ifs <;> omega
    · rw [andThen_completed rfl]
      simp only [List.nil_append, Option.toList_none, List.map_cons, List.count_cons]
      split_ifs <;> omega

/-! ## Helper lemmas: recovery chunks -/

theorem recoverChunkStep_timeout {env : Env} {title : String} {c : List Photo}
    (h : env.exportChunk (c.map Photo.uuid) = .timeout) :
    recoverChunkStep env title c =
      ⟨.completed, [], [.recoverChunk (c.map Photo.uuid)]⟩ := by
  unfold recoverChunkStep
  rw [h]

theorem recoverChunkStep_auth {env : Env} {title : String} {c : List Photo}
    {out err : String} (h : env.exportChunk (c.map Photo.uuid) = .failed out err)
    (ha : hasAuthSig out err = true) :
    recoverChunkStep env title c =
      ⟨.exitedAuth, [], [.recoverChunk (c.map Photo.uuid)]⟩ := by
  unfold recoverChunkStep
  rw [h]
  simp [ha]

theorem recoverChunkStep_otherFail {env : Env} {title : String} {c : List Photo}
    {out err : String} (h : env.exportChunk (c.map Photo.uuid) = .failed out err)
    (ha : hasAuthSig out err = false) :
    recoverChunkStep env title c =
      ⟨.completed, [], [.recoverChunk (c.map Photo.uuid)]⟩ := by
  unfold recoverChunkStep
  rw [h]
  simp [ha]

theorem recoverChunkStep_ok {env : Env} {title : String} {c : List Photo}
    (h : env.exportChunk (c.map Photo.uuid) = .ok) :
    recoverChunkStep env title c =
      ⟨(runList (recoverPhotoStep env title) c).status,
       (runList (recoverPhotoStep env title) c).inserts,
       .recoverChunk (c.map Photo.uuid) :: (runList (recoverPhotoStep env title) c).calls⟩ := by
  unfold recoverChunkStep
  rw [h]
  dsimp only
  rw [andThen_completed rfl]
  rfl

theorem recoverChunkStep_mem {env : Env} {title : String} {c : List Photo}
    {row : String × String} (h : row ∈ (recoverChunkStep env title c).inserts) :
    env.exportChunk (c.map Photo.uuid) = .ok ∧
      ∃ p ∈ c, row = (p.uuid, title) ∧
        ∃ f rest, env.foundFiles p.uuid = f :: rest ∧ env.uploadFile f = .success := by
  rcases he : env.exportChunk (c.map Photo.uuid) with _ | _ | ⟨out, err⟩
  · rw [recoverChunkStep_ok he] at h
    obtain ⟨p, hp, hrow⟩ := runList_mem_inserts h
    obtain ⟨hq, hfile⟩ := recoverPhotoStep_mem hrow
    exact ⟨rfl, p, hp, hq, hfile⟩
  · rw [recoverChunkStep_timeout he] at h
    simp at h
  · by_cases ha : hasAuthSig out err = true
    · rw [recoverChunkStep_auth he ha] at h
      simp at h
    · rw [recoverChunkStep_otherFail he (Bool.not_eq_true _ ▸ ha)] at h
      simp at h

theorem recoverChunkStep_count (env : Env) (title : String) (c : List Photo) (u : String) :
    ((recoverChunkStep env title c).inserts.map Prod.fst).count u ≤
      (c.map Photo.uuid).count u := by
  rcases he : env.exportChunk (c.map Photo.uuid) with _ | _ | ⟨out, err⟩
  · rw [recoverChunkStep_ok he]
    have hb := runList_count_le (f := recoverPhotoStep env title)
      (g := fun p => [p.uuid]) (recoverPhotoStep_count env title) c u
    rwa [flatten_map_singleton Photo.uuid c] at hb
  · rw [recoverChunkStep_timeout he]; simp
  · by_cases ha : hasAuthSig out err = true
    · rw [recoverChunkStep_auth he ha]; simp
    · rw [recoverChunkStep_otherFail he (Bool.not_eq_true _ ▸ ha)]; simp

theorem download_missing_mem {env : Env} {title : String} {missing : List Photo}
    {row : String × String}
    (h : row ∈ (download_and_upload_missing env title missing).inserts) :
    ∃ ch, ch ∈ chunksOf chunk_size missing ∧ env.exportChunk (ch.map Photo.uuid) = .ok ∧
      ∃ p ∈ ch, row = (p.uuid, title) ∧
        ∃ f rest, env.foundFiles p.uuid = f :: rest ∧ env.uploadFile f = .success := by
  obtain ⟨ch, hch, hrow⟩ := runList_mem_inserts h
  obtain ⟨hok, hp⟩ := recoverChunkStep_mem hrow
  exact ⟨ch, hch, hok, hp⟩

theorem mem_of_mem_chunksOf {α : Type} {n : Nat} (hn : 0 < n) {l : List α}
    {c : List α} {x : α} (hc : c ∈ chunksOf n l) (hx : x ∈ c) : x ∈ l := by
  rw [← chunksOf_flatten n hn l]
  exact List.mem_flatten.mpr ⟨c, hc, hx⟩

theorem download_missing_count (env : Env) (title : String) (missing : List Photo)
    (u : String) :
    ((download_and_upload_missing env title missing).inserts.map Prod.fst).count u ≤
      (missing.map Photo.uuid).count u := by
  have hb := runList_count_le (f := recoverChunkStep env title)
    (g := fun c => c.map Photo.uuid) (recoverChunkStep_count env title)
    (chunksOf chunk_size missing) u
  rwa [← List.map_flatten, chunksOf_flatten chunk_size (by decide)] at hb

/-! ## Claim theorems C6 and C9 -/

/-- C6: in missing-item recovery, a chunk whose collaborator invocation
times out is skipped whole — it contributes no ledger rows — and the run
continues with the remaining chunks; a collaborator failure carrying the
authorization signature halts the run at once (no rows, no further
collaborator calls); any other failure is chunk-scoped: skip and
continue. Every recovery ledger row comes from a chunk whose invocation
succeeded. -/
theorem recovery_chunk_handling (env : Env) (title : String) (c : List Photo)
    (cs : List (List Photo)) (missing : List Photo) :
    (env.exportChunk (c.map Photo.uuid) = .timeout →
       runList (recoverChunkStep env title) (c :: cs) =
         ⟨(runList (recoverChunkStep env title) cs).status,
          (runList (recoverChunkStep env title) cs).inserts,
          .recoverChunk (c.map Photo.uuid) :: (runList (recoverChunkStep env title) cs).calls⟩) ∧
    (∀ out err, env.exportChunk (c.map Photo.uuid) = .failed out err →
       hasAuthSig out err = true →
       runList (recoverChunkStep env title) (c :: cs) =
         ⟨.exitedAuth, [], [.recoverChunk (c.map Photo.uuid)]⟩) ∧
    (∀ out err, env.exportChunk (c.map Photo.uuid) = .failed out err →
       hasAuthSig out err = false →
       runList (recoverChunkStep env title) (c :: cs) =
         ⟨(runList (recoverChunkStep env title) cs).status,
          (runList (recoverChunkStep env title) cs).inserts,
          .recoverChunk (c.map Photo.uuid) :: (runList (recoverChunkStep env title) cs).calls⟩) ∧
    (∀ row ∈ (download_and_upload_missing env title missing).inserts,
       ∃ ch, ch ∈ chunksOf chunk_size missing ∧
         env.exportChunk (ch.map Photo.uuid) = .ok ∧ row.2 = title ∧
         row.1 ∈ ch.map Photo.uuid) := by
  refine ⟨?_, ?_, ?_, ?_⟩
  · intro h
    rw [runList_cons, recoverChunkStep_timeout h, andThen_completed rfl]
    rfl
  · intro out err h ha
    rw [runList_cons, recoverChunkStep_auth h ha,
      andThen_not_completed (by intro hq; cases hq)]
  · intro out err h ha
    rw [runList_cons, recoverChunkStep_otherFail h ha, andThen_completed rfl]
    rfl
  · intro row h
    obtain ⟨ch, hch, hok, p, hp, hrow, _⟩ := download_missing_mem h
    refine ⟨ch, hch, hok, ?_, ?_⟩
    · rw [hrow]
    · rw [hrow]
      exact List.mem_map.mpr ⟨p, hp, rfl⟩

/-- C6 witness: a two-chunk run where the first chunk times out: the run
skips it and continues with the second chunk. -/
theorem recovery_chunk_handling_witness :
    runList (recoverChunkStep envTimeout "Trip") [[photoA], [photoB]] =
      ⟨(runList (recoverChunkStep envTimeout "Trip") [[photoB]]).status,
       (runList (recoverChunkStep envTimeout "Trip") [[photoB]]).inserts,
       .recoverChunk (([photoA]).map Photo.uuid) ::
         (runList (recoverChunkStep envTimeout "Trip") [[photoB]]).calls⟩ :=
  (recovery_chunk_handling envTimeout "Trip" [photoA] [[photoB]] []).1 (by decide)

/-- C9 (code bug): the malformed commit response
`{"newMediaItemResults": []}` makes `upload_photo` raise `IndexError`
(line 175's `[0]` subscript) instead of being converted to an item-scoped
failure, and the exception propagates out of the main loop, aborting the
run — contradicting the claim that every transfer failure, malformed
commit responses included, is caught and converted to a progress signal. -/
theorem commit_empty_results_raises :
    (upload_photo p1Ok p2EmptyResults).outcome = .raisedExn ∧
    (runAlbums envRaise false [(albumT, [photoA])]).status = .raisedExn := by
  refine ⟨by decide, by decide⟩

/-! ## Helper lemmas: resolution and the album loop -/

theorem resolveStep_dry (env : Env) (t : String) :
    resolveStep env t true = (some "DRY_RUN_ID", ⟨.completed, [], []⟩) := rfl

theorem resolveStep_ok {env : Env} {t g : String} (h : env.resolveFirst t = .ok g) :
    resolveStep env t false = (some g, ⟨.completed, [], [.resolveAlbum t]⟩) := by
  unfold resolveStep
  rw [if_neg (by decide), h]

theorem resolveStep_raise {env : Env} {t : String}
    (h : env.resolveFirst t = .otherHttpError) :
    resolveStep env t false = (none, ⟨.raisedExn, [], [.resolveAlbum t]⟩) := by
  unfold resolveStep
  rw [if_neg (by decide), h]

theorem resolveStep_scope_ok {env : Env} {t g : String}
    (h1 : env.resolveFirst t = .scopeError) (h2 : env.resolveRetry t = .ok g) :
    resolveStep env t false =
      (some g, ⟨.completed, [], [.resolveAlbum t, .reauth, .resolveAlbum t]⟩) := by
  unfold resolveStep
  rw [if_neg (by decide), h1, h2]

theorem resolveStep_scope_fail {env : Env} {t : String}
    (h1 : env.resolveFirst t = .scopeError)
    (h2 : env.resolveRetry t = .scopeError ∨ env.resolveRetry t = .otherHttpError) :
    resolveStep env t false =
      (none, ⟨.haltedScope, [], [.resolveAlbum t, .reauth, .resolveAlbum t]⟩) := by
  unfold resolveStep
  rw [if_neg (by decide), h1]
  rcases h2 with h2 | h2 <;> rw [h2]

theorem resolveStep_inserts (env : Env) (t : String) (d : Bool) :
    (resolveStep env t d).2.inserts = [] := by
  unfold resolveStep
  split
  · rfl
  · split <;> first | rfl | (split <;> rfl)

theorem syncAlbum_resolve_fail {env : Env} {a : Album} {ps : List Photo}
    (h : (resolveStep env a.title false).2.status ≠ .completed) :
    syncAlbum env false a ps = (resolveStep env a.title false).2 := by
  unfold syncAlbum
  rw [if_neg h]

theorem syncAlbum_resolve_done {env : Env} {a : Album} {ps : List Photo}
    (h : (resolveStep env a.title false).2.status = .completed) :
    syncAlbum env false a ps =
      (resolveStep env a.title false).2.andThen
        ((syncPhotos env a.title ps).1.andThen
          (download_and_upload_missing env a.title (syncPhotos env a.title ps).2)) := by
  unfold syncAlbum
  rw [if_pos h, if_neg (by decide)]

theorem syncAlbum_dry (env : Env) (a : Album) (ps : List Photo) :
    syncAlbum env true a ps = ⟨.completed, [], []⟩ := rfl

theorem syncAlbum_inserts_cases (env : Env) (a : Album) (ps : List Photo) :
    (syncAlbum env false a ps).inserts = [] ∨
    (syncAlbum env false a ps).inserts = (syncPhotos env a.title ps).1.inserts ∨
    (syncAlbum env false a ps).inserts =
      (syncPhotos env a.title ps).1.inserts ++
        (download_and_upload_missing env a.title (syncPhotos env a.title ps).2).inserts := by
  by_cases h : (resolveStep env a.title false).2.status = .completed
  · rw [syncAlbum_resolve_done h, andThen_completed h]
    dsimp only
    rw [resolveStep_inserts, List.nil_append]
    by_cases hm : (syncPhotos env a.title ps).1.status = .completed
    · rw [andThen_completed hm]
      exact Or.inr (Or.inr rfl)
    · rw [andThen_not_completed hm]
      exact Or.inr (Or.inl rfl)
  · rw [syncAlbum_resolve_fail h, resolveStep_inserts]
    exact Or.inl rfl

theorem syncAlbum_mem {env : Env} {a : Album} {ps : List Photo}
    {row : String × String} (d : Bool) (h : row ∈ (syncAlbum env d a ps).inserts) :
    row.2 = a.title ∧ row.1 ∈ ps.map Photo.uuid ∧ uploadConfirmed env row.1 := by
  cases d
  · rcases syncAlbum_inserts_cases env a ps with hc | hc | hc <;> rw [hc] at h
    · simp at h
    · obtain ⟨p, hp, hrow, f, rest, he, hu⟩ := syncPhotos_mem h
      refine ⟨by rw [hrow], by rw [hrow]; exact List.mem_map.mpr ⟨p, hp, rfl⟩, ?_⟩
      rw [hrow]
      exact Or.inl ⟨f, rest, he, hu⟩
    · rcases List.mem_append.mp h with h | h
      · obtain ⟨p, hp, hrow, f, rest, he, hu⟩ := syncPhotos_mem h
        refine ⟨by rw [hrow], by rw [hrow]; exact List.mem_map.mpr ⟨p, hp, rfl⟩, ?_⟩
        rw [hrow]
        exact Or.inl ⟨f, rest, he, hu⟩
      · obtain ⟨ch, hch, hok, p, hp, hrow, f, rest, hf, hu⟩ := download_missing_mem h
        have hpm : p ∈ ps :=
          syncPhotos_missing_subset (mem_of_mem_chunksOf (by decide) hch hp)
        refine ⟨by rw [hrow], by rw [hrow]; exact List.mem_map.mpr ⟨p, hpm, rfl⟩, ?_⟩
        rw [hrow]
        exact Or.inr ⟨f, rest, hf, hu⟩
  · rw [syncAlbum_dry] at h
    simp at h

theorem syncAlbum_count (env : Env) (d : Bool) (a : Album) (ps : List Photo)
    (u : String) :
    ((syncAlbum env d a ps).inserts.map Prod.fst).count u ≤
      (ps.map Photo.uuid).count u := by
  cases d
  · rcases syncAlbum_inserts_cases env a ps with hc | hc | hc <;> rw [hc]
    · simp
    · have h1 := syncPhotos_count env a.title ps u
      omega
    · rw [List.map_append, List.count_append]
      have h1 := syncPhotos_count env a.title ps u
      have h2 := download_missing_count env a.title (syncPhotos env a.title ps).2 u
      omega
  · rw [syncAlbum_dry]
    simp

theorem syncAlbum_nodup (env : Env) (d : Bool) (a : Album) (ps : List Photo)
    (h : (ps.map Photo.uuid).Nodup) : (syncAlbum env d a ps).inserts.Nodup := by
  have hm : ((syncAlbum env d a ps).inserts.map Prod.fst).Nodup := by
    rw [List.nodup_iff_count_le_one]
    intro u
    exact Nat.le_trans (syncAlbum_count env d a ps u)
      (List.nodup_iff_count_le_one.mp h u)
  exact List.Nodup.of_map _ hm

theorem runAlbums_cons (env : Env) (d : Bool) (x : Album × List Photo)
    (xs : List (Album × List Photo)) :
    runAlbums env d (x :: xs) = (syncAlbum env d x.1 x.2).andThen (runAlbums env d xs) := rfl

theorem runAlbums_mem {env : Env} {d : Bool} {l : List (Album × List Photo)}
    {row : String × String} (h : row ∈ (runAlbums env d l).inserts) :
    ∃ ap ∈ l, row.2 = ap.1.title ∧ row.1 ∈ ap.2.map Photo.uuid ∧
      uploadConfirmed env row.1 := by
  obtain ⟨x, hx, hrow⟩ := runList_mem_inserts h
  exact ⟨x, hx, syncAlbum_mem d hrow⟩

theorem runAlbums_nodup (env : Env) (d : Bool) :
    ∀ (l : List (Album × List Photo)),
      (l.map (fun ap => ap.1.title)).Nodup →
      (∀ ap ∈ l, (ap.2.map Photo.uuid).Nodup) →
      (runAlbums env d l).inserts.Nodup := by
  intro l
  induction l with
  | nil => intro _ _; simp [runAlbums, runList]
  | cons x xs ih =>
    intro ht hp
    rw [List.map_cons, List.nodup_cons] at ht
    rw [runAlbums_cons]
    by_cases hs : (syncAlbum env d x.1 x.2).status = .completed
    · rw [andThen_completed hs]
      dsimp only
      rw [List.nodup_append]
      refine ⟨syncAlbum_nodup env d x.1 x.2 (hp x (List.mem_cons_self _ _)),
        ih ht.2 (fun ap hap => hp ap (List.mem_cons_of_mem _ hap)), ?_⟩
      intro row hrow hrow2
      have h1 := syncAlbum_mem d hrow
      obtain ⟨ap, hap, h2, _, _⟩ := runAlbums_mem hrow2
      exact ht.1 (List.mem_map.mpr ⟨ap, hap, by rw [← h2, h1.1]⟩)
    · rw [andThen_not_completed hs]
      exact syncAlbum_nodup env d x.1 x.2 (hp x (List.mem_cons_self _ _))

theorem runAlbums_dry (env : Env) :
    ∀ backlog : List (Album × List Photo),
      runAlbums env true backlog = ⟨.completed, [], []⟩ := by
  intro backlog
  induction backlog with
  | nil => rfl
  | cons x xs ih =>
    rw [runAlbums_cons, syncAlbum_dry, ih]
    rfl

/-! ## Claim theorems C7 and C8 -/

/-- C7: an insufficient-scope error during destination resolution makes
the orchestrator invalidate the cached credential, re-authenticate and
retry that one resolution exactly once (two remote resolution calls, one
re-authentication); when the retry also fails with an HttpError the run
ends immediately — no item of that destination and no later destination
is processed, and nothing further is called or inserted. -/
theorem scope_error_handling (env : Env) (a : Album) (ps : List Photo)
    (rest : List (Album × List Photo)) (h1 : env.resolveFirst a.title = .scopeError) :
    ((env.resolveRetry a.title = .scopeError ∨ env.resolveRetry a.title = .otherHttpError) →
       runAlbums env false ((a, ps) :: rest) =
         ⟨.haltedScope, [], [.resolveAlbum a.title, .reauth, .resolveAlbum a.title]⟩) ∧
    (∀ g, env.resolveRetry a.title = .ok g →
       resolveStep env a.title false =
         (some g, ⟨.completed, [], [.resolveAlbum a.title, .reauth, .resolveAlbum a.title]⟩)) ∧
    ((resolveStep env a.title false).2.calls.count (CallEvent.resolveAlbum a.title) = 2 ∧
     (resolveStep env a.title false).2.calls.count CallEvent.reauth = 1) := by
  refine ⟨?_, ?_, ?_⟩
  · intro h2
    have hrs := resolveStep_scope_fail h1 h2
    have hst : (resolveStep env a.title false).2.status ≠ .completed := by
      rw [hrs]
      simp
    rw [runAlbums_cons]
    have hsync : syncAlbum env false a ps =
        ⟨.haltedScope, [], [.resolveAlbum a.title, .reauth, .resolveAlbum a.title]⟩ := by
      rw [syncAlbum_resolve_fail hst, hrs]
    rw [hsync, andThen_not_completed (by simp)]
  · intro g h2
    exact resolveStep_scope_ok h1 h2
  · rcases hr : env.resolveRetry a.title with g | _ | _
    · rw [resolveStep_scope_ok h1 hr]
      constructor <;> simp [List.count_cons, List.count_nil]
    · rw [resolveStep_scope_fail h1 (Or.inl hr)]
      constructor <;> simp [List.count_cons, List.count_nil]
    · rw [resolveStep_scope_fail h1 (Or.inr hr)]
      constructor <;> simp [List.count_cons, List.count_nil]

/-- C7 witness: the halt applied to a concrete environment whose
resolution fails with the scope error before and after re-auth. -/
theorem scope_error_handling_witness :
    runAlbums envScope false [(albumT, [photoA])] =
      ⟨.haltedScope, [], [.resolveAlbum albumT.title, .reauth, .resolveAlbum albumT.title]⟩ :=
  (scope_error_handling envScope albumT [photoA] [] rfl).1 (Or.inl rfl)

/-- C8: with dry-run enabled no resolution, transfer or recovery call is
ever issued (the run's call trace is empty), destination resolution
returns the sentinel identifier, and the ledger after the run equals the
ledger before it. -/
theorem dry_run_frame (env : Env) (numLimit : Option Nat) (shared : List Album)
    (ledger0 : Ledger) :
    runMain env true numLimit shared ledger0 = (⟨.completed, [], []⟩, ledger0) ∧
    (∀ t, resolveStep env t true = (some "DRY_RUN_ID", ⟨.completed, [], []⟩)) := by
  constructor
  · unfold runMain
    cases numLimit <;> simp [runAlbums_dry]
  · intro t
    rfl

/-! ## Helper lemmas: the whole run -/

theorem runMain_fst (env : Env) (d : Bool) (nl : Option Nat) (shared : List Album)
    (l0 : Ledger) :
    (runMain env d nl shared l0).1 =
      runAlbums env d (match nl with
        | none => computeBacklog shared l0
        | some n => (computeBacklog shared l0).take n) := rfl

theorem runMain_snd (env : Env) (d : Bool) (nl : Option Nat) (shared : List Album)
    (l0 : Ledger) :
    (runMain env d nl shared l0).2 = l0 ++ (runMain env d nl shared l0).1.inserts := rfl

theorem filterMap_fst_titles_sublist (f : Album → Option (Album × List Photo))
    (hf : ∀ a b, f a = some b → b.1 = a) :
    ∀ shared : List Album,
      ((shared.filterMap f).map (fun ap => ap.1.title)).Sublist
        (shared.map Album.title) := by
  intro shared
  induction shared with
  | nil => simp
  | cons a rest ih =>
    rw [List.filterMap_cons]
    rcases hfa : f a with _ | b
    · rw [List.map_cons]
      exact ih.cons _
    · rw [List.map_cons, List.map_cons, hf a b hfa]
      exact ih.cons₂ _

theorem backlog_titles_sublist (shared : List Album) (ledger : Ledger) :
    ((computeBacklog shared ledger).map (fun ap => ap.1.title)).Sublist
      (shared.map Album.title) := by
  apply filterMap_fst_titles_sublist
  intro a b hab
  by_cases he : (pendingPhotos ledger a).isEmpty = true
  · rw [if_pos he] at hab
    cases hab
  · rw [if_neg he] at hab
    rw [← Option.some.injEq] at hab
    cases hab
    rfl

/-- The backlog list actually used by the run (after the `--num` cut). -/
def usedBacklog (nl : Option Nat) (shared : List Album) (l0 : Ledger) :
    List (Album × List Photo) :=
  match nl with
  | none => computeBacklog shared l0
  | some n => (computeBacklog shared l0).take n

theorem usedBacklog_subset {nl : Option Nat} {shared : List Album} {l0 : Ledger}
    {ap : Album × List Photo} (h : ap ∈ usedBacklog nl shared l0) :
    ap ∈ computeBacklog shared l0 := by
  cases nl with
  | none => exact h
  | some n => exact List.take_subset n _ h

theorem usedBacklog_titles_nodup {nl : Option Nat} {shared : List Album} {l0 : Ledger}
    (ht : (shared.map Album.title).Nodup) :
    ((usedBacklog nl shared l0).map (fun ap => ap.1.title)).Nodup := by
  cases nl with
  | none => exact (backlog_titles_sublist shared l0).nodup ht
  | some n =>
    exact (((List.take_sublist n _).map _).trans (backlog_titles_sublist shared l0)).nodup ht

theorem pending_uuids_nodup {shared : List Album} {l0 : Ledger} {ap : Album × List Photo}
    (hp : ∀ a ∈ shared, (a.photos.map Photo.uuid).Nodup)
    (h : ap ∈ computeBacklog shared l0) : (ap.2.map Photo.uuid).Nodup := by
  rcases ap with ⟨a, ps⟩
  obtain ⟨ha, _, hps⟩ := mem_computeBacklog.mp h
  rw [hps]
  exact ((List.filter_sublist a.photos).map Photo.uuid).nodup (hp a ha)

theorem pending_not_in_ledger {l0 : Ledger} {a : Album} {u : String}
    (h : u ∈ (pendingPhotos l0 a).map Photo.uuid) : (u, a.title) ∉ l0 := by
  obtain ⟨p, hp, hpu⟩ := List.mem_map.mp h
  obtain ⟨_, hdec⟩ := List.mem_filter.mp hp
  rw [decide_eq_true_eq] at hdec
  intro hmem
  rw [← hpu] at hmem
  exact hdec (mem_syncedUuids.mpr hmem)

/-! ## Claim theorems C1 and C10 -/

/-- C1: the run only appends to the ledger — the initial ledger is a
prefix of the final one, rows are never updated or deleted — and every
row inserted during the run is justified by a transfer whose outcome was
the confirmed success, which at the transfer level happens only when the
commit response's per-item status message is `Success`. -/
theorem ledger_rows_only_after_confirmed_success (env : Env) (d : Bool)
    (nl : Option Nat) (shared : List Album) (l0 : Ledger) :
    l0 <+: (runMain env d nl shared l0).2 ∧
    (∀ row ∈ (runMain env d nl shared l0).1.inserts, uploadConfirmed env row.1) ∧
    (∀ p1 p2, (upload_photo p1 p2).outcome = .success →
       ∃ r, (createMediaWithRetry p2).result = .done r ∧
         commitStatusMessage r = .ok (some "Success")) := by
  refine ⟨?_, ?_, fun p1 p2 h => upload_photo_success_shape p1 p2 h⟩
  · rw [runMain_snd]
    exact List.prefix_append l0 _
  · intro row h
    rw [runMain_fst] at h
    obtain ⟨ap, _, _, _, hc⟩ := runAlbums_mem h
    exact hc

/-- C1 witness: applied to a concrete successful run: the old ledger is a
prefix of the new one, and the inserted row for uuid u1 is justified by a
confirmed upload. -/
theorem ledger_rows_only_after_confirmed_success_witness :
    ([("x", "Other")] : Ledger) <+:
      (runMain envHappy false none [albumT] [("x", "Other")]).2 ∧
    uploadConfirmed envHappy "u1" :=
  ⟨(ledger_rows_only_after_confirmed_success envHappy false none [albumT]
      [("x", "Other")]).1,
   (ledger_rows_only_after_confirmed_success envHappy false none [albumT]
      [("x", "Other")]).2.1 ("u1", "Trip") (by decide)⟩

/-- C10: when shared-album titles are unique and each album's photo uuids
are unique, a run never inserts the same (uuid, title) pair twice, and no
inserted pair was already present in the ledger at the start of the run —
so the unguarded INSERT never violates the composite primary key. -/
theorem no_duplicate_ledger_insert (env : Env) (d : Bool) (nl : Option Nat)
    (shared : List Album) (l0 : Ledger)
    (ht : (shared.map Album.title).Nodup)
    (hp : ∀ a ∈ shared, (a.photos.map Photo.uuid).Nodup) :
    (runMain env d nl shared l0).1.inserts.Nodup ∧
    (∀ row ∈ (runMain env d nl shared l0).1.inserts, row ∉ l0) := by
  have hfst : (runMain env d nl shared l0).1 = runAlbums env d (usedBacklog nl shared l0) := by
    rw [runMain_fst]
    cases nl <;> rfl
  constructor
  · rw [hfst]
    exact runAlbums_nodup env d (usedBacklog nl shared l0)
      (usedBacklog_titles_nodup ht)
      (fun ap hap => pending_uuids_nodup hp (usedBacklog_subset hap))
  · intro row h
    rw [hfst] at h
    obtain ⟨ap, hap, h2, h1, _⟩ := runAlbums_mem h
    obtain ⟨_, _, hps⟩ := mem_computeBacklog.mp (usedBacklog_subset hap)
    have hu : row.1 ∈ (pendingPhotos l0 ap.1).map Photo.uuid := by
      rw [← hps]
      exact h1
    have hrow : row = (row.1, ap.1.title) := by
      rcases row with ⟨x, y⟩
      simp only at h2
      rw [h2]
    rw [hrow]
    exact pending_not_in_ledger hu

/-- C10 witness: applied to a concrete run with unique titles and uuids. -/
theorem no_duplicate_ledger_insert_witness :
    (runMain envHappy false none [albumT] [("x", "Other")]).1.inserts.Nodup ∧
    (∀ row ∈ (runMain envHappy false none [albumT] [("x", "Other")]).1.inserts,
      row ∉ ([("x", "Other")] : Ledger)) :=
  no_duplicate_ledger_insert envHappy false none [albumT] [("x", "Other")]
    (by decide) (by decide)

end SyncAlbums
